import Mathlib

/-!
Verification development for the BarberFlow availability and booking engine.

Shallow embedding conventions:
* An instant is a `Nat`: minutes since 1970-01-01 00:00 (naive local time,
  minute granularity; all instants handled by the engine have zero seconds).
* The document store is a pair of lists (`Store`); a Mongo `find_one(filter)`
  is the first list element satisfying the filter, a `find(filter)` is the
  sublist of elements satisfying it, in insertion order.
* The case-insensitive anchored regex used for exact name matching is
  embedded as lowercase string equality, and the unanchored regex as
  lowercase substring containment (queries contain no regex metacharacters).
* The difflib similarity ratio is an external standard-library capability;
  it is a parameter `simFn` returning a score in percent (cutoff 0.6 = 60).
* The dateutil fuzzy parser is likewise external: the parse result that the
  code post-processes is passed in as an `Option Nat`.
-/

/-- Zero-padded two-digit rendering of a natural number, as printf %02d. -/
def pad2 (n : Nat) : String :=
  if n < 10 then "0" ++ toString n else toString n

/-- Zero-padded four-digit rendering, as strftime %Y for years 1000-9999. -/
def pad4 (n : Nat) : String :=
  if n < 10 then "000" ++ toString n
  else if n < 100 then "00" ++ toString n
  else if n < 1000 then "0" ++ toString n
  else toString n

/-- strftime "%I:%M %p": 12-hour clock with zero-padded hour and AM/PM tag. -/
def fmt12 (t : Nat) : String :=
  let m := t % 1440
  let h := m / 60
  let mi := m % 60
  let h12 := (h + 11) % 12 + 1
  pad2 h12 ++ ":" ++ pad2 mi ++ (if h < 12 then " AM" else " PM")

/-- Civil (year, month, day) of a day count since 1970-01-01, by the standard
era-based Gregorian conversion. -/
def civilFromDays (days : Nat) : Nat × Nat × Nat :=
  let z := days + 719468
  let era := z / 146097
  let doe := z % 146097
  let yoe := (doe - doe / 1460 + doe / 36524 - doe / 146096) / 365
  let y := yoe + era * 400
  let doy := doe - (365 * yoe + yoe / 4 - yoe / 100)
  let mp := (5 * doy + 2) / 153
  let d := doy - (153 * mp + 2) / 5 + 1
  let m := if mp < 10 then mp + 3 else mp - 9
  (if m ≤ 2 then y + 1 else y, m, d)

/-- datetime.isoformat() for an instant with zero seconds and microseconds:
"YYYY-MM-DDTHH:MM:SS". -/
def isoformat (t : Nat) : String :=
  let c := civilFromDays (t / 1440)
  let m := t % 1440
  pad4 c.1 ++ "-" ++ pad2 c.2.1 ++ "-" ++ pad2 c.2.2 ++ "T" ++
    pad2 (m / 60) ++ ":" ++ pad2 (m % 60) ++ ":00"

/-- Lowercase English weekday names indexed from the epoch day
(1970-01-01 was a Thursday). -/
def dayNames : List String :=
  ["thursday", "friday", "saturday", "sunday", "monday", "tuesday", "wednesday"]

/-- get_day_name: strftime("%A").lower() of an instant. -/
def get_day_name (t : Nat) : String :=
  dayNames.getD (t / 1440 % 7) ""

/-- datetime.replace(hour=h, minute=m, second=0, microsecond=0): keep the
calendar day of `t`, set the time of day. -/
def replaceHM (t h m : Nat) : Nat :=
  t / 1440 * 1440 + h * 60 + m

/-- The midnight starting the calendar day of `t`
(replace(hour=0, minute=0, second=0)). -/
def dayFloor (t : Nat) : Nat :=
  t / 1440 * 1440

/-- Containment of one character list in another (Python `in` on strings). -/
def containsSub (needle : List Char) : List Char → Bool
  | [] => needle.isPrefixOf []
  | c :: rest => needle.isPrefixOf (c :: rest) || containsSub needle rest

/-- Python `needle in hay` for strings (case handling is up to the caller). -/
def strContains (hay needle : String) : Bool :=
  containsSub needle.data hay.data

/-- ASCII lowercase of one character (str.lower on the characters the data
model uses). -/
def lowerChar (c : Char) : Char :=
  if 65 ≤ c.toNat ∧ c.toNat ≤ 90 then Char.ofNat (c.toNat + 32) else c

/-- Python str.lower() over the ASCII range. -/
def pyLower (s : String) : String :=
  String.mk (s.data.map lowerChar)

/-- Python str.strip(): drop leading and trailing whitespace. -/
def pyStrip (s : String) : String :=
  String.mk
    (((s.data.dropWhile Char.isWhitespace).reverse.dropWhile
      Char.isWhitespace).reverse)

/-- Word accumulator for str.split(): whitespace runs separate words, empty
pieces are dropped. -/
def wordsAux (acc : List Char) : List Char → List String
  | [] => if acc = [] then [] else [String.mk acc.reverse]
  | c :: rest =>
    if c.isWhitespace then
      (if acc = [] then [] else [String.mk acc.reverse]) ++ wordsAux [] rest
    else wordsAux (c :: acc) rest

/-- Python str.split(): split on whitespace runs, dropping empty pieces. -/
def pySplit (s : String) : List String :=
  wordsAux [] s.data

/-- Working hours of one weekday: start/end as "HH:MM" strings plus the
day-off flag, as in models/barber.py. -/
structure WorkingHours where
  start : String
  stop : String
  is_off : Bool
deriving Repr, DecidableEq

/-- Decimal value of a digit string (int() on the well-formed "HH"/"MM"
pieces; the malformed-input path raises in the source and is immaterial
here). -/
def natOfDigits (cs : List Char) : Nat :=
  cs.foldl (fun n c => n * 10 + (c.toNat - 48)) 0

/-- Hour component of an "HH:MM" string: int(s.split(":")[0]). -/
def hourOf (s : String) : Nat :=
  natOfDigits (s.data.takeWhile (fun c => c ≠ ':'))

/-- Minute component of an "HH:MM" string: int(s.split(":")[1]). -/
def minuteOf (s : String) : Nat :=
  natOfDigits (((s.data.dropWhile (fun c => c ≠ ':')).drop 1).takeWhile
    (fun c => c ≠ ':'))

/-- A barber record (models/barber.py). The float rating field is omitted:
no modelled operation reads it. -/
structure Barber where
  id : String
  name : String
  email : String
  phone : String
  specialties : List String
  working_hours : List (String × WorkingHours)
  is_available : Bool
deriving Repr, DecidableEq

/-- Python dict lookup working_hours[day] together with the `day in dict`
test: the entry for the given weekday name, if present. -/
def lookupHours (wh : List (String × WorkingHours)) (day : String) :
    Option WorkingHours :=
  (wh.find? (fun p => p.1 == day)).map (fun p => p.2)

/-- An appointment record (models/appointment.py). -/
structure Appointment where
  id : String
  customer_name : String
  customer_email : String
  customer_phone : String
  barber_id : String
  barber_name : String
  service_type : String
  appointment_datetime : Nat
  duration_minutes : Nat
  status : String
  created_at : Nat
  notes : Option String
deriving Repr, DecidableEq

/-- The document store: the barbers and appointments collections, in
insertion order. -/
structure Store where
  barbers : List Barber
  appointments : List Appointment
deriving Repr, DecidableEq

/-- An ephemeral slot value: {"time": datetime, "formatted": strftime string}. -/
structure Slot where
  time : Nat
  formatted : String
deriving Repr, DecidableEq

/-- Verdict of check_slot_availability. -/
structure AvailabilityResult where
  available : Bool
  reason : String
  alternatives : List Slot
deriving Repr, DecidableEq

/-- One alternative as formatted by the booking tool: a 12-hour clock string
plus the ISO instant when a concrete instant is known. -/
structure FormattedAlt where
  time : String
  iso : Option String
deriving Repr, DecidableEq

/-- Result dictionary of the book_appointment tool; keys absent in a given
branch of the source are `none`/`[]` here. -/
structure BookResult where
  success : Bool
  error : Option String
  appointment_id : Option String
  confirmation_number : Option String
  alternatives : List FormattedAlt
  barber_name : Option String
  details : Option Appointment
deriving Repr, DecidableEq

/-- parse_natural_datetime (utils/datetime_utils.py) applied to the result
`raw` of the external fuzzy parser: if the parsed instant is before now and
falls on today, roll it forward one day; otherwise return it unchanged;
no parse, no result. -/
def parse_natural_datetime (raw : Option Nat) (now : Nat) : Option Nat :=
  match raw with
  | none => none
  | some dt =>
    if dt < now then
      if dt / 1440 = now / 1440 then some (dt + 1440) else some dt
    else some dt

/-- get_barber_by_id (services/barber_service.py): find_one({"_id": id}),
with no availability filter. -/
def get_barber_by_id (db : Store) (barber_id : String) : Option Barber :=
  db.barbers.find? (fun b => b.id == barber_id)

/-- difflib.get_close_matches(word, possibilities, n=1, cutoff): the names
scoring at least the cutoff, keeping the largest (score, name) pair; `simFn`
stands for the external similarity ratio, in percent. -/
def get_close_matches1 (simFn : String → String → Nat) (word : String)
    (possibilities : List String) (cutoff : Nat) : Option String :=
  let scored := (possibilities.map (fun nm => (simFn word nm, nm))).filter
    (fun p => cutoff ≤ p.1)
  (scored.foldl (fun acc p =>
    match acc with
    | none => some p
    | some q => if q.1 < p.1 ∨ (q.1 = p.1 ∧ q.2 < p.2) then some p else some q)
    none).map (fun p => p.2)

/-- Token stage of get_barber_by_name: for each search word in turn, scan the
available barbers whose lowercase name contains that word, returning the
first one some word of whose name is a substring of, or contains, some
search word. -/
def tokenLoop (barbers : List Barber) (search_words : List String) :
    List String → Option Barber
  | [] => none
  | w :: rest =>
    match (barbers.filter
        (fun b => b.is_available && strContains (pyLower b.name) w)).find?
        (fun b => search_words.any (fun sw =>
          (pySplit (pyLower b.name)).any (fun bw =>
            strContains bw sw || strContains sw bw))) with
    | some b => some b
    | none => tokenLoop barbers search_words rest

/-- get_barber_by_name (services/barber_service.py): guard against blank
input, then exact case-insensitive match, substring match, token-level
match, and the difflib similarity fallback with cutoff 0.6, every stage
filtered to is_available barbers. -/
def get_barber_by_name (db : Store) (simFn : String → String → Nat)
    (name : String) : Option Barber :=
  if name = "" || pyStrip name = "" then none
  else
    let name_lower := pyLower (pyStrip name)
    match db.barbers.find?
        (fun b => b.is_available && pyLower b.name == name_lower) with
    | some b => some b
    | none =>
      match db.barbers.find?
          (fun b => b.is_available && strContains (pyLower b.name) name_lower) with
      | some b => some b
      | none =>
        let search_words := pySplit name_lower
        match tokenLoop db.barbers search_words search_words with
        | some b => some b
        | none =>
          let candidates := db.barbers.filter (fun b => b.is_available)
          if candidates = [] then none
          else
            match get_close_matches1 simFn name
                (candidates.map (fun b => b.name)) 60 with
            | none => none
            | some best_name =>
              candidates.find? (fun b => b.name == best_name)

/-- get_barber_appointments (services/appointment_service.py): confirmed
appointments of the barber whose start instant lies in [start_date, end_date]. -/
def get_barber_appointments (db : Store) (barber_id : String)
    (start_date end_date : Nat) : List Appointment :=
  db.appointments.filter (fun a =>
    a.barber_id == barber_id && a.status == "confirmed" &&
    start_date ≤ a.appointment_datetime && a.appointment_datetime ≤ end_date)

/-- create_appointment (services/appointment_service.py): insert the record
and return the assigned identity. -/
def create_appointment (db : Store) (appointment : Appointment) :
    Store × String :=
  ({ db with appointments := db.appointments ++ [appointment] }, appointment.id)

/-- Interior loop of get_available_slots: from `current`, take 30-minute
strides while a window of length `dur` still fits before `work_end`; keep a
window iff it overlaps no fetched appointment and, when the queried date is
today, its start is strictly after now. The structural `fuel` argument is a
termination bound only: each pass advances `current` by 30, so the caller
passes `work_end + 30`, strictly more than the possible pass count, and the
loop always stops at the while condition exactly as the source loop does
(the exact-enumeration theorem below confirms no truncation occurs). -/
def slotLoop (appointments : List Appointment) (now date dur work_end : Nat) :
    Nat → Nat → List Slot
  | 0, _ => []
  | fuel + 1, current =>
    if current + dur ≤ work_end then
      let slot_end := current + dur
      let is_available := !(appointments.any (fun a =>
        a.appointment_datetime < slot_end &&
        current < a.appointment_datetime + a.duration_minutes))
      let is_future :=
        if date / 1440 = now / 1440 then decide (now < current) else true
      (if is_future && is_available then [⟨current, fmt12 current⟩] else []) ++
        slotLoop appointments now date dur work_end fuel (current + 30)
    else []

/-- get_available_slots (services/availability_service.py): the ordered open
slots of a barber on the calendar day of `date`, of length `service_duration`,
at a 30-minute stride across the working hours of that weekday. -/
def get_available_slots (db : Store) (now : Nat) (barber_id : String)
    (date : Nat) (service_duration : Nat) : List Slot :=
  match get_barber_by_id db barber_id with
  | none => []
  | some barber =>
    match lookupHours barber.working_hours (get_day_name date) with
    | none => []
    | some hours =>
      if hours.is_off then []
      else
        let work_start := replaceHM date (hourOf hours.start) (minuteOf hours.start)
        let work_end := replaceHM date (hourOf hours.stop) (minuteOf hours.stop)
        let day_start := dayFloor date
        let day_end := day_start + 1439
        let appointments := get_barber_appointments db barber_id day_start day_end
        slotLoop appointments now date service_duration work_end
          (work_end + 30) work_start

/-- Bounded scan of _get_next_available_slots: try up to `fuel` consecutive
days, returning the first non-empty slot list. -/
def nextAvailLoop (db : Store) (now : Nat) (barber_id : String)
    (service_duration : Nat) : Nat → Nat → List Slot
  | 0, _ => []
  | fuel + 1, date =>
    let slots := get_available_slots db now barber_id date service_duration
    if slots ≠ [] then slots else nextAvailLoop db now barber_id service_duration fuel (date + 1440)

/-- _get_next_available_slots (services/availability_service.py): scan
forward day by day from start_date for up to 7 days; first non-empty day wins. -/
def get_next_available_slots (db : Store) (now : Nat) (barber_id : String)
    (start_date : Nat) (service_duration : Nat) : List Slot :=
  nextAvailLoop db now barber_id service_duration 7 start_date

/-- check_slot_availability (services/availability_service.py): decide
whether the 30-minute-stride engine can take the requested interval, walking
the guards in source order and attaching up to 5 alternatives where the
source does. -/
def check_slot_availability (db : Store) (now : Nat) (barber_id : String)
    (slot_datetime : Nat) (duration : Nat) : AvailabilityResult :=
  match get_barber_by_id db barber_id with
  | none => ⟨false, "Barber not found", []⟩
  | some barber =>
    if !barber.is_available then ⟨false, "Barber is not available", []⟩
    else
      let day_name := get_day_name slot_datetime
      match lookupHours barber.working_hours day_name with
      | none => ⟨false, "Barber does not work on " ++ day_name, []⟩
      | some hours =>
        if hours.is_off then ⟨false, "Barber is off on " ++ day_name, []⟩
        else
          let work_start := replaceHM slot_datetime (hourOf hours.start) (minuteOf hours.start)
          let work_end := replaceHM slot_datetime (hourOf hours.stop) (minuteOf hours.stop)
          let slot_end := slot_datetime + duration
          if slot_datetime < work_start ∨ work_end < slot_end then
            let alternatives :=
              if slot_datetime / 1440 < now / 1440 then
                get_next_available_slots db now barber_id now duration
              else
                get_available_slots db now barber_id slot_datetime duration
            ⟨false, "Time slot is outside working hours", alternatives.take 5⟩
          else if slot_datetime < now then
            ⟨false, "Time slot is in the past",
              (get_next_available_slots db now barber_id now duration).take 5⟩
          else
            let day_start := dayFloor slot_datetime
            let day_end := day_start + 1439
            let appointments := get_barber_appointments db barber_id day_start day_end
            match appointments.find? (fun a =>
                slot_datetime < a.appointment_datetime + a.duration_minutes &&
                a.appointment_datetime < slot_end) with
            | some _ =>
              ⟨false, "Time slot conflicts with existing appointment",
                (get_available_slots db now barber_id slot_datetime duration).take 5⟩
            | none => ⟨true, "Slot is available", []⟩

/-- Barber resolution steps of the book_appointment tool (agent/tools.py):
by id first, then by name using the id argument, then by name using the name
argument when it is non-empty; on a name hit the id and display name are
rebound to the resolved record. -/
def resolveBarber (db : Store) (simFn : String → String → Nat)
    (barber_id barber_name : String) : Option Barber × String × String :=
  match get_barber_by_id db barber_id with
  | some b => (some b, barber_id, barber_name)
  | none =>
    match get_barber_by_name db simFn barber_id with
    | some b => (some b, b.id, b.name)
    | none =>
      if barber_name ≠ "" then
        match get_barber_by_name db simFn barber_name with
        | some b => (some b, b.id, b.name)
        | none => (none, barber_id, barber_name)
      else (none, barber_id, barber_name)

/-- Alternative formatting in the booking tool: every alternative produced by
the availability layer is a slot dictionary carrying a concrete instant, so
it is rendered as its 12-hour clock string plus its ISO instant. -/
def formatAlternatives (alts : List Slot) : List FormattedAlt :=
  alts.map (fun a => ⟨fmt12 a.time, some (isoformat a.time)⟩)

/-- book_appointment (agent/tools.py): parse the datetime text (`rawDt` is
the external parse result fed to parse_natural_datetime), resolve the
barber, re-check availability with the fixed 30-minute duration, and either
report failure with formatted alternatives or insert the appointment with
the fresh identity `newId` and return it as confirmation. -/
def book_appointment (db : Store) (now : Nat)
    (simFn : String → String → Nat)
    (customer_name customer_email customer_phone : String)
    (barber_id barber_name service_type : String)
    (rawDt : Option Nat) (newId : String) : BookResult × Store :=
  match parse_natural_datetime rawDt now with
  | none => (⟨false, some "Invalid date format", none, none, [], none, none⟩, db)
  | some dt =>
    match resolveBarber db simFn barber_id barber_name with
    | (none, bid, bname) =>
      let ref := if bid ≠ "" then bid else bname
      (⟨false, some ("Barber not found: " ++ ref), none, none, [], none, none⟩, db)
    | (some _, bid, bname) =>
      let availability := check_slot_availability db now bid dt 30
      if !availability.available then
        (⟨false, some availability.reason, none, none,
          formatAlternatives availability.alternatives, some bname, none⟩, db)
      else
        let appt : Appointment :=
          ⟨newId, customer_name, customer_email, customer_phone, bid, bname,
            service_type, dt, 30, "confirmed", now, none⟩
        let ins := create_appointment db appt
        (⟨true, none, some ins.2, some ins.2, [], none, some appt⟩, ins.1)

/-- Overlap predicate used by the conflict scan of check_slot_availability. -/
def conflictsWith (slot_datetime duration : Nat) (a : Appointment) : Bool :=
  slot_datetime < a.appointment_datetime + a.duration_minutes &&
  a.appointment_datetime < slot_datetime + duration

theorem check_eval_guards (db : Store) (now : Nat) (bid : String) (t dur : Nat)
    (b : Barber) (hrs : WorkingHours)
    (hb : get_barber_by_id db bid = some b)
    (hav : b.is_available = true)
    (hh : lookupHours b.working_hours (get_day_name t) = some hrs)
    (hoff : hrs.is_off = false)
    (hws : replaceHM t (hourOf hrs.start) (minuteOf hrs.start) ≤ t)
    (hwe : t + dur ≤ replaceHM t (hourOf hrs.stop) (minuteOf hrs.stop))
    (hnow : now ≤ t) :
    check_slot_availability db now bid t dur =
      match (get_barber_appointments db bid (dayFloor t) (dayFloor t + 1439)).find?
          (conflictsWith t dur) with
      | some _ =>
        ⟨false, "Time slot conflicts with existing appointment",
          (get_available_slots db now bid t dur).take 5⟩
      | none => ⟨true, "Slot is available", []⟩ := by
  unfold check_slot_availability
  rw [hb]
  simp only [hav, Bool.not_true, Bool.false_eq_true, if_false]
  rw [hh]
  simp only [hoff, Bool.false_eq_true, if_false]
  rw [if_neg (by omega), if_neg (by omega)]
  rfl


theorem check_avail_true_elim (db : Store) (now : Nat) (bid : String) (t dur : Nat)
    (h : (check_slot_availability db now bid t dur).available = true) :
    ∃ b hrs, get_barber_by_id db bid = some b ∧ b.is_available = true ∧
      lookupHours b.working_hours (get_day_name t) = some hrs ∧
      hrs.is_off = false ∧
      replaceHM t (hourOf hrs.start) (minuteOf hrs.start) ≤ t ∧
      t + dur ≤ replaceHM t (hourOf hrs.stop) (minuteOf hrs.stop) ∧
      now ≤ t ∧
      (get_barber_appointments db bid (dayFloor t) (dayFloor t + 1439)).find?
        (conflictsWith t dur) = none := by
  cases hb : get_barber_by_id db bid with
  | none =>
    have hres : check_slot_availability db now bid t dur =
        ⟨false, "Barber not found", []⟩ := by
      unfold check_slot_availability; rw [hb]
    rw [hres] at h; simp at h
  | some b =>
    by_cases hav : b.is_available = true
    · cases hlk : lookupHours b.working_hours (get_day_name t) with
      | none =>
        have hres : (check_slot_availability db now bid t dur).available = false := by
          unfold check_slot_availability; rw [hb]; simp [hav, hlk]
        rw [hres] at h; simp at h
      | some hrs =>
        by_cases hoff : hrs.is_off = true
        · have hres : (check_slot_availability db now bid t dur).available = false := by
            unfold check_slot_availability; rw [hb]; simp [hav, hlk, hoff]
          rw [hres] at h; simp at h
        · by_cases hcond : t < replaceHM t (hourOf hrs.start) (minuteOf hrs.start) ∨
              replaceHM t (hourOf hrs.stop) (minuteOf hrs.stop) < t + dur
          · have hres : (check_slot_availability db now bid t dur).available = false := by
              unfold check_slot_availability; rw [hb]; simp only [hav, hlk, hoff]
              simp [if_pos hcond]
            rw [hres] at h; simp at h
          · by_cases hpast : t < now
            · have hres : (check_slot_availability db now bid t dur).available = false := by
                unfold check_slot_availability; rw [hb]; simp only [hav, hlk, hoff]
                simp [if_neg hcond, if_pos hpast]
              rw [hres] at h; simp at h
            · push_neg at hcond
              cases hfind : (get_barber_appointments db bid (dayFloor t)
                  (dayFloor t + 1439)).find? (conflictsWith t dur) with
              | some a =>
                have hres := check_eval_guards db now bid t dur b hrs hb hav hlk
                  (by simpa using hoff) (by omega) (by omega) (by omega)
                rw [hfind] at hres
                rw [hres] at h; simp at h
              | none =>
                exact ⟨b, hrs, rfl, hav, hlk, by simpa using hoff, by omega, by omega,
                  by omega, rfl⟩
    · have hres : (check_slot_availability db now bid t dur).available = false := by
        unfold check_slot_availability; rw [hb]; simp [hav]
      rw [hres] at h; simp at h



theorem slotLoop_mem (appts : List Appointment) (now date dur work_end : Nat) :
    ∀ fuel cur, ∀ s ∈ slotLoop appts now date dur work_end fuel cur,
      cur ≤ s.time ∧
      (date / 1440 = now / 1440 → now < s.time) ∧
      ∀ a ∈ appts, ¬(a.appointment_datetime < s.time + dur ∧
        s.time < a.appointment_datetime + a.duration_minutes) := by
  intro fuel
  induction fuel with
  | zero => intro cur s hs; simp [slotLoop] at hs
  | succ n ih =>
    intro cur s hs
    rw [slotLoop] at hs
    by_cases h : cur + dur ≤ work_end
    · rw [if_pos h] at hs
      rw [List.mem_append, List.mem_ite_nil_right] at hs
      rcases hs with ⟨hc, hs⟩ | hs
      · simp only [List.mem_singleton] at hs
        have hst : s.time = cur := by rw [hs]
        rw [Bool.and_eq_true] at hc
        obtain ⟨hfut, havail⟩ := hc
        refine ⟨by omega, ?_, ?_⟩
        · intro hd
          rw [if_pos hd] at hfut
          have := of_decide_eq_true hfut
          omega
        · intro a ha
          rw [Bool.not_eq_eq_eq_not, Bool.not_true, List.any_eq_false] at havail
          have := havail a ha
          simp only [Bool.and_eq_true, decide_eq_true_eq, not_and] at this
          omega
      · have := ih (cur + 30) s hs
        refine ⟨by omega, this.2.1, this.2.2⟩
    · rw [if_neg h] at hs
      simp at hs

theorem slots_mem (db : Store) (now : Nat) (bid : String) (date dur : Nat) :
    ∀ s ∈ get_available_slots db now bid date dur,
      dayFloor date ≤ s.time ∧
      (date / 1440 = now / 1440 → now < s.time) ∧
      ∀ a ∈ get_barber_appointments db bid (dayFloor date) (dayFloor date + 1439),
        ¬(a.appointment_datetime < s.time + dur ∧
          s.time < a.appointment_datetime + a.duration_minutes) := by
  intro s hs
  unfold get_available_slots at hs
  cases hb : get_barber_by_id db bid with
  | none => rw [hb] at hs; simp at hs
  | some b =>
    rw [hb] at hs
    simp only at hs
    cases hlk : lookupHours b.working_hours (get_day_name date) with
    | none => rw [hlk] at hs; simp at hs
    | some hrs =>
      rw [hlk] at hs
      simp only at hs
      by_cases hoff : hrs.is_off = true
      · rw [if_pos hoff] at hs; simp at hs
      · rw [if_neg hoff] at hs
        have hm := slotLoop_mem
          (get_barber_appointments db bid (dayFloor date) (dayFloor date + 1439))
          now date dur (replaceHM date (hourOf hrs.stop) (minuteOf hrs.stop))
          (replaceHM date (hourOf hrs.stop) (minuteOf hrs.stop) + 30)
          (replaceHM date (hourOf hrs.start) (minuteOf hrs.start)) s hs
        refine ⟨?_, hm.2.1, hm.2.2⟩
        have : dayFloor date ≤ replaceHM date (hourOf hrs.start) (minuteOf hrs.start) := by
          unfold dayFloor replaceHM; omega
        omega

theorem slots_future (db : Store) (now : Nat) (bid : String) (date dur : Nat)
    (hd : now / 1440 ≤ date / 1440) :
    ∀ s ∈ get_available_slots db now bid date dur, now < s.time := by
  intro s hs
  have hm := slots_mem db now bid date dur s hs
  by_cases heq : date / 1440 = now / 1440
  · exact hm.2.1 heq
  · have h1 : now / 1440 < date / 1440 := by omega
    have h2 := Nat.div_add_mod now 1440
    have h3 : now % 1440 < 1440 := Nat.mod_lt _ (by norm_num)
    have h4 : dayFloor date = date / 1440 * 1440 := rfl
    have h5 : dayFloor date ≤ s.time := hm.1
    have h6 : (now / 1440 + 1) * 1440 ≤ date / 1440 * 1440 :=
      Nat.mul_le_mul_right _ (by omega)
    omega

theorem nextAvail_future (db : Store) (now : Nat) (bid : String) (dur : Nat) :
    ∀ fuel date, now / 1440 ≤ date / 1440 →
      ∀ s ∈ nextAvailLoop db now bid dur fuel date, now < s.time := by
  intro fuel
  induction fuel with
  | zero => intro date hd s hs; simp [nextAvailLoop] at hs
  | succ n ih =>
    intro date hd s hs
    rw [nextAvailLoop] at hs
    split at hs
    · exact slots_future db now bid date dur hd s hs
    · refine ih (date + 1440) ?_ s hs
      have : (date + 1440) / 1440 = date / 1440 + 1 := by
        rw [Nat.add_div_right _ (by norm_num)]
      omega


theorem slotLoop_nil (now date dur work_end : Nat)
    (hfut : date / 1440 ≠ now / 1440) :
    ∀ n fuel cur, n + 1 ≤ fuel → cur + dur + 30 * n ≤ work_end →
      work_end < cur + dur + 30 * n + 30 →
      (slotLoop [] now date dur work_end fuel cur).map Slot.time =
        List.range' cur (n + 1) 30 := by
  intro n
  induction n with
  | zero =>
    intro fuel cur hf h1 h2
    obtain ⟨f, rfl⟩ : ∃ f, fuel = f + 1 := ⟨fuel - 1, by omega⟩
    rw [slotLoop, if_pos (by omega)]
    cases f with
    | zero => simp [slotLoop, hfut]
    | succ f2 =>
      rw [slotLoop, if_neg (show ¬(cur + 30 + dur ≤ work_end) from by omega)]
      simp [hfut]
  | succ n ih =>
    intro fuel cur hf h1 h2
    obtain ⟨f, rfl⟩ : ∃ f, fuel = f + 1 := ⟨fuel - 1, by omega⟩
    rw [slotLoop, if_pos (by omega)]
    have hrec := ih f (cur + 30) (by omega) (by omega) (by omega)
    simp only [List.any_nil, Bool.not_false, Bool.and_true, if_neg hfut,
      List.map_append, hrec, List.range'_succ]
    rfl

/-! Concrete fixtures used by witnesses and counterexamples. All day counts
are days since 1970-01-01: day 20393 is Saturday 2025-11-01, day 20422 is
Sunday 2025-11-30, day 20423 is Monday 2025-12-01, day 20425 is Wednesday
2025-12-03. -/

/-- A barber working Mon-Fri 09:00-17:00, Saturday 10:00-16:00, off Sunday. -/
def sarahDavis : Barber :=
  ⟨"b1", "Sarah Davis", "sarah@barberflow.com", "555-0101", ["haircut"],
    [("monday", ⟨"09:00", "17:00", false⟩), ("tuesday", ⟨"09:00", "17:00", false⟩),
     ("wednesday", ⟨"09:00", "17:00", false⟩), ("thursday", ⟨"09:00", "17:00", false⟩),
     ("friday", ⟨"09:00", "17:00", false⟩), ("saturday", ⟨"10:00", "16:00", false⟩),
     ("sunday", ⟨"00:00", "00:00", true⟩)], true⟩

/-- Store holding only the Sarah Davis record. -/
def storeSarah : Store := ⟨[sarahDavis], []⟩

/-- The reference current instant: Saturday 2025-11-01, 12:00. -/
def now0 : Nat := 20393 * 1440 + 720

/-- C8 fixture: the exactly-named barber. -/
def johnSmith : Barber :=
  ⟨"j1", "John Smith", "john@barberflow.com", "555-0102", ["haircut"], [], true⟩

/-- C8 fixture: the fuzzily-similar barber. -/
def johnnyStone : Barber :=
  ⟨"j2", "Johnny Stone", "johnny@barberflow.com", "555-0103", ["haircut"], [], true⟩

/-- C3 fixture: a barber whose availability flag is false. -/
def unavailableBarber : Barber :=
  ⟨"b9", "Mike Ross", "mike@barberflow.com", "555-0104", ["haircut"], [], false⟩

/-- C7: for a parseable input whose instant falls on today strictly before
now, parse_natural_datetime returns the instant plus exactly one day; any
other past instant is returned unchanged; unparseable text yields no result. -/
theorem parse_rollforward_policy (raw : Option Nat) (now : Nat) :
    (raw = none → parse_natural_datetime raw now = none) ∧
    (∀ t, raw = some t → t < now → t / 1440 = now / 1440 →
      parse_natural_datetime raw now = some (t + 1440)) ∧
    (∀ t, raw = some t → t < now → t / 1440 ≠ now / 1440 →
      parse_natural_datetime raw now = some t) := by
  refine ⟨?_, ?_, ?_⟩
  · intro h; rw [h]; rfl
  · intro t h hlt hd
    rw [h]; simp [parse_natural_datetime, hlt, hd]
  · intro t h hlt hd
    rw [h]; simp [parse_natural_datetime, hlt, hd]

/-- C7 witness: a same-day past instant rolls forward one day. -/
theorem parse_rollforward_policy_witness :
    parse_natural_datetime (some 100) 200 = some (100 + 1440) :=
  (parse_rollforward_policy (some 100) 200).2.1 100 rfl (by decide) (by decide)

/-- C9: a name that is empty or whitespace-only resolves to no barber, for
every store and similarity function. -/
theorem blank_name_returns_none (db : Store) (simFn : String → String → Nat)
    (name : String) (h : pyStrip name = "") :
    get_barber_by_name db simFn name = none := by
  simp [get_barber_by_name, h]

/-- C9 witness: the all-whitespace reference resolves to none. -/
theorem blank_name_returns_none_witness :
    get_barber_by_name ⟨[], []⟩ (fun _ _ => 0) "   " = none :=
  blank_name_returns_none ⟨[], []⟩ (fun _ _ => 0) "   " (by decide)

/-- C8: with the barbers John Smith and Johnny Stone both available, the
query "John Smith" resolves to John Smith in either store order, for every
similarity function: the exact full-name stage decides before any fuzzy
stage runs. -/
theorem exact_match_beats_fuzzy (simFn : String → String → Nat)
    (appts : List Appointment) :
    get_barber_by_name ⟨[johnSmith, johnnyStone], appts⟩ simFn "John Smith" =
      some johnSmith ∧
    get_barber_by_name ⟨[johnnyStone, johnSmith], appts⟩ simFn "John Smith" =
      some johnSmith :=
  ⟨rfl, rfl⟩

/-- C3 counterexample: the exact id lookup stage resolves a barber whose
is_available flag is false, so the claim fails at its id-lookup stage. -/
theorem id_lookup_ignores_flag :
    get_barber_by_id ⟨[unavailableBarber], []⟩ "b9" = some unavailableBarber ∧
    unavailableBarber.is_available = false :=
  ⟨rfl, rfl⟩

/-- The token-level stage only returns barbers drawn from an availability
filtered scan. -/
theorem tokenLoop_available (barbers : List Barber) (sw : List String) :
    ∀ l b, tokenLoop barbers sw l = some b → b.is_available = true := by
  intro l
  induction l with
  | nil => intro b h; simp [tokenLoop] at h
  | cons w rest ih =>
    intro b h
    rw [tokenLoop] at h
    split at h
    case _ b0 hfind =>
      cases h
      have hmem := List.mem_of_find?_eq_some hfind
      have hp := List.of_mem_filter hmem
      simp only [Bool.and_eq_true] at hp
      exact hp.1
    case _ => exact ih b h

/-- C3 amended: at every name-matching stage (exact, substring, token,
similarity fallback) only barbers whose is_available flag is true can be
returned, for every store, similarity function and reference string; the
exact id lookup stage carries no such filter (see the counterexample). -/
theorem name_resolution_only_available (db : Store)
    (simFn : String → String → Nat) (name : String) (b : Barber)
    (h : get_barber_by_name db simFn name = some b) :
    b.is_available = true := by
  unfold get_barber_by_name at h
  split at h
  · exact absurd h (by simp)
  · dsimp only [] at h
    split at h
    case _ b0 hfind =>
      cases h
      have hp := List.find?_some hfind
      simp only [Bool.and_eq_true] at hp
      exact hp.1
    case _ =>
      split at h
      case _ b0 hfind =>
        cases h
        have hp := List.find?_some hfind
        simp only [Bool.and_eq_true] at hp
        exact hp.1
      case _ =>
        split at h
        case _ b0 htok =>
          cases h
          exact tokenLoop_available db.barbers _ _ _ htok
        case _ =>
          split at h
          · exact absurd h (by simp)
          · split at h
            · exact absurd h (by simp)
            case _ best hbest =>
              have hmem := List.mem_of_find?_eq_some h
              have := List.of_mem_filter hmem
              simpa using this

/-- C3 witness: the fuzzy reference "sara" resolves, and the theorem yields
the availability of the resolved barber. -/
theorem name_resolution_only_available_witness :
    sarahDavis.is_available = true :=
  name_resolution_only_available storeSarah (fun _ _ => 0) "sara" sarahDavis rfl

/-- C10: every appointment present in the store after a book_appointment
call was either already there, or carries duration_minutes 30 and status
"confirmed" — for every service label, including ones whose catalogue
duration differs. -/
theorem booked_duration_and_status (db : Store) (now : Nat)
    (simFn : String → String → Nat) (cn ce cp bid bn st nid : String)
    (rawDt : Option Nat) :
    ∀ a ∈ (book_appointment db now simFn cn ce cp bid bn st rawDt nid).2.appointments,
      a ∈ db.appointments ∨ (a.duration_minutes = 30 ∧ a.status = "confirmed") := by
  intro a ha
  unfold book_appointment at ha
  split at ha
  · exact Or.inl ha
  · split at ha
    · exact Or.inl ha
    · dsimp only [] at ha
      split at ha
      · exact Or.inl ha
      · dsimp only [create_appointment] at ha
        rw [List.mem_append] at ha
        rcases ha with ha | ha
        · exact Or.inl ha
        · simp only [List.mem_singleton] at ha
          subst ha
          exact Or.inr ⟨rfl, rfl⟩

/-- The appointment inserted by the C10 witness booking. -/
def bookedAppt : Appointment :=
  ⟨"a1", "Ali", "ali@mail.com", "555-1", "b1", "Sarah Davis", "haircut",
    20425 * 1440 + 900, 30, "confirmed", now0, none⟩

/-- C10 witness: a concrete successful 60-minute-service booking inserts an
appointment, and the theorem classifies it as duration 30 and confirmed. -/
theorem booked_duration_and_status_witness :
    bookedAppt ∈ storeSarah.appointments ∨
      (bookedAppt.duration_minutes = 30 ∧ bookedAppt.status = "confirmed") :=
  booked_duration_and_status storeSarah now0 (fun _ _ => 0) "Ali" "ali@mail.com"
    "555-1" "b1" "Sarah Davis" "haircut" "a1" (some (20425 * 1440 + 900))
    bookedAppt (by decide)

/-- C6: for a barber whose working hours on the queried weekday are
09:00-17:00, a future queried date and no appointments fetched for that day,
the 30-minute slot enumeration returns exactly 16 slot start times:
09:00, 09:30, ..., 16:30 anchored to the queried day, in chronological
order (a stride-30 arithmetic progression whose last slot ends at close). -/
theorem slot_enumeration_0900_1700 (db : Store) (now : Nat) (bid : String)
    (date : Nat) (b : Barber)
    (hb : get_barber_by_id db bid = some b)
    (hh : lookupHours b.working_hours (get_day_name date) =
      some ⟨"09:00", "17:00", false⟩)
    (hfut : now / 1440 < date / 1440)
    (hno : get_barber_appointments db bid (dayFloor date) (dayFloor date + 1439) = []) :
    (get_available_slots db now bid date 30).map Slot.time =
      List.range' (dayFloor date + 540) 16 30 := by
  unfold get_available_slots
  rw [hb]
  dsimp only []
  rw [hh]
  dsimp only []
  have e1 : hourOf (WorkingHours.mk "09:00" "17:00" false).start = 9 := by decide
  have e2 : minuteOf (WorkingHours.mk "09:00" "17:00" false).start = 0 := by decide
  have e3 : hourOf (WorkingHours.mk "09:00" "17:00" false).stop = 17 := by decide
  have e4 : minuteOf (WorkingHours.mk "09:00" "17:00" false).stop = 0 := by decide
  simp only [e1, e2, e3, e4]
  rw [if_neg (by decide)]
  rw [hno]
  have e5 : replaceHM date 9 0 = dayFloor date + 540 := by
    unfold replaceHM dayFloor; omega
  have e6 : replaceHM date 17 0 = dayFloor date + 1020 := by
    unfold replaceHM dayFloor; omega
  rw [e5, e6]
  have := slotLoop_nil now date 30 (dayFloor date + 1020) (by omega) 15
    (dayFloor date + 1020 + 30) (dayFloor date + 540) (by omega) (by omega)
    (by omega)
  exact this

/-- C6 witness: Sarah Davis on Monday 2025-12-01 with an empty store yields
the sixteen slot starts 09:00 to 16:30. -/
theorem slot_enumeration_0900_1700_witness :
    (get_available_slots storeSarah now0 "b1" (20423 * 1440) 30).map Slot.time =
      List.range' (dayFloor (20423 * 1440) + 540) 16 30 :=
  slot_enumeration_0900_1700 storeSarah now0 "b1" (20423 * 1440) sarahDavis
    rfl (by decide) (by decide) rfl

/-- Evaluation of check_slot_availability on the in-the-past branch: with
the barber found and flagged available, the weekday open, and the interval
inside the work window, an instant before now yields the past verdict with
the forward-scan alternatives. -/
theorem check_eval_past (db : Store) (now : Nat) (bid : String) (t dur : Nat)
    (b : Barber) (hrs : WorkingHours)
    (hb : get_barber_by_id db bid = some b)
    (hav : b.is_available = true)
    (hh : lookupHours b.working_hours (get_day_name t) = some hrs)
    (hoff : hrs.is_off = false)
    (hws : replaceHM t (hourOf hrs.start) (minuteOf hrs.start) ≤ t)
    (hwe : t + dur ≤ replaceHM t (hourOf hrs.stop) (minuteOf hrs.stop))
    (hpast : t < now) :
    check_slot_availability db now bid t dur =
      ⟨false, "Time slot is in the past",
        (get_next_available_slots db now bid now dur).take 5⟩ := by
  unfold check_slot_availability
  rw [hb]
  simp only [hav, Bool.not_true, Bool.false_eq_true, if_false]
  rw [hh]
  simp only [hoff, Bool.false_eq_true, if_false]
  rw [if_neg (by omega), if_pos hpast]


/-- C4 counterexample: Sunday 2025-10-26 10:00 is strictly before now for an
existing provider, yet the verdict reason is the closed-day reason, not
"Time slot is in the past": the closed-day guard fires first. -/
theorem past_instant_counterexample :
    (get_barber_by_id storeSarah "b1").isSome = true ∧
    20387 * 1440 + 600 < now0 ∧
    (check_slot_availability storeSarah now0 "b1" (20387 * 1440 + 600) 30).available
      = false ∧
    (check_slot_availability storeSarah now0 "b1" (20387 * 1440 + 600) 30).reason
      = "Barber is off on sunday" ∧
    (check_slot_availability storeSarah now0 "b1" (20387 * 1440 + 600) 30).reason
      ≠ "Time slot is in the past" := by
  refine ⟨rfl, by decide, ?_, ?_, ?_⟩ <;> decide

/-- C4 amended: for a provider that exists, is flagged available, has a
non-off working-hours entry for the weekday of the requested instant, with
the 30-minute interval inside that day's work window, every instant strictly
before now yields available=false with reason "Time slot is in the past",
and every alternative slot (found by scanning forward day by day from now
for up to 7 days, first non-empty day, truncated to 5) is strictly in the
future. -/
theorem past_instant_verdict (db : Store) (now : Nat) (bid : String) (t : Nat)
    (b : Barber) (hrs : WorkingHours)
    (hb : get_barber_by_id db bid = some b)
    (hav : b.is_available = true)
    (hh : lookupHours b.working_hours (get_day_name t) = some hrs)
    (hoff : hrs.is_off = false)
    (hws : replaceHM t (hourOf hrs.start) (minuteOf hrs.start) ≤ t)
    (hwe : t + 30 ≤ replaceHM t (hourOf hrs.stop) (minuteOf hrs.stop))
    (hpast : t < now) :
    (check_slot_availability db now bid t 30).available = false ∧
    (check_slot_availability db now bid t 30).reason = "Time slot is in the past" ∧
    ∀ s ∈ (check_slot_availability db now bid t 30).alternatives, now < s.time := by
  have hres := check_eval_past db now bid t 30 b hrs hb hav hh hoff hws hwe hpast
  rw [hres]
  refine ⟨rfl, rfl, ?_⟩
  intro s hs
  simp only at hs
  have hs2 : s ∈ get_next_available_slots db now bid now 30 :=
    List.mem_of_mem_take hs
  exact nextAvail_future db now bid 30 7 now (le_refl _) s hs2

/-- C4 witness: Saturday 2025-11-01 at 10:30, before the noon current
instant, is reported as in the past with future alternatives only. -/
theorem past_instant_verdict_witness :
    (check_slot_availability storeSarah now0 "b1" (20393 * 1440 + 630) 30).available
      = false ∧
    (check_slot_availability storeSarah now0 "b1" (20393 * 1440 + 630) 30).reason
      = "Time slot is in the past" ∧
    ∀ s ∈ (check_slot_availability storeSarah now0 "b1" (20393 * 1440 + 630) 30).alternatives,
      now0 < s.time :=
  past_instant_verdict storeSarah now0 "b1" (20393 * 1440 + 630) sarahDavis
    ⟨"10:00", "16:00", false⟩ rfl rfl (by decide) rfl (by decide) (by decide)
    (by decide)

/-- C2 counterexample: booking with a valid provider id but a mismatched
display-name argument is refused carrying the argument name "Bob", not the
display name of the resolved provider ("Sarah Davis"): when resolution
succeeds directly by id the name argument is never rebound. -/
theorem booking_refusal_argument_name :
    ((book_appointment storeSarah now0 (fun _ _ => 0) "Ali" "ali@mail.com"
        "555-1" "b1" "Bob" "haircut" (some (20422 * 1440 + 600)) "n1").1.success
      = false) ∧
    ((book_appointment storeSarah now0 (fun _ _ => 0) "Ali" "ali@mail.com"
        "555-1" "b1" "Bob" "haircut" (some (20422 * 1440 + 600)) "n1").1.barber_name
      = some "Bob") ∧
    (get_barber_by_id storeSarah "b1" = some sarahDavis) ∧
    sarahDavis.name = "Sarah Davis" ∧
    some "Bob" ≠ some sarahDavis.name := by
  refine ⟨?_, ?_, rfl, rfl, by decide⟩ <;> decide

/-- C2 amended: whenever the commit-time availability re-check (always run
with the fixed 30-minute duration) reports available=false, book returns a
failure result carrying the checker reason, the formatted alternatives
(each a 12-hour clock string plus an ISO instant), and the barber name as
resolved — the barber_name argument, rebound to the display name of the
resolved provider only when resolution fell through to name matching — and
the store is returned unchanged: no appointment is inserted. -/
theorem booking_refusal_no_insert (db : Store) (now : Nat)
    (simFn : String → String → Nat) (cn ce cp bid bn st nid : String)
    (rawDt : Option Nat) (dt : Nat) (b : Barber) (bid2 bn2 : String)
    (hparse : parse_natural_datetime rawDt now = some dt)
    (hres : resolveBarber db simFn bid bn = (some b, bid2, bn2))
    (hun : (check_slot_availability db now bid2 dt 30).available = false) :
    book_appointment db now simFn cn ce cp bid bn st rawDt nid =
      (⟨false, some (check_slot_availability db now bid2 dt 30).reason, none, none,
        formatAlternatives (check_slot_availability db now bid2 dt 30).alternatives,
        some bn2, none⟩, db) := by
  unfold book_appointment
  rw [hparse]
  dsimp only []
  rw [hres]
  dsimp only []
  simp only [hun, Bool.not_false, if_true]


/-- C2 witness: the refused Sunday booking returns the checker reason with
no change to the store. -/
theorem booking_refusal_no_insert_witness :
    book_appointment storeSarah now0 (fun _ _ => 0) "Ali" "ali@mail.com"
        "555-1" "b1" "Sarah Davis" "haircut" (some (20422 * 1440 + 600)) "n1" =
      (⟨false,
        some (check_slot_availability storeSarah now0 "b1" (20422 * 1440 + 600) 30).reason,
        none, none,
        formatAlternatives
          (check_slot_availability storeSarah now0 "b1" (20422 * 1440 + 600) 30).alternatives,
        some "Sarah Davis", none⟩, storeSarah) :=
  booking_refusal_no_insert storeSarah now0 (fun _ _ => 0) "Ali" "ali@mail.com"
    "555-1" "b1" "Sarah Davis" "haircut" "n1" (some (20422 * 1440 + 600))
    (20422 * 1440 + 600) sarahDavis "b1" "Sarah Davis" (by decide) rfl (by decide)

/-- C5 fixture: a confirmed appointment starting Sunday 2025-11-30 23:00
lasting 660 minutes, so it ends Monday 10:00. -/
def overnightAppt : Appointment :=
  ⟨"a9", "Sam", "sam@mail.com", "555-2", "b1", "Sarah Davis", "haircut",
    20422 * 1440 + 1380, 660, "confirmed", now0, none⟩

/-- Store with the overnight appointment. -/
def storeOvernight : Store := ⟨[sarahDavis], [overnightAppt]⟩

/-- C5 counterexample: the Monday slot list contains a slot overlapping the
confirmed overnight appointment: the day query fetches only appointments
whose start lies inside the queried calendar day, so an appointment begun
the previous evening is invisible to the overlap filter. -/
theorem slot_overlaps_overnight_appt :
    ∃ s ∈ get_available_slots storeOvernight now0 "b1" (20423 * 1440) 30,
    ∃ a ∈ storeOvernight.appointments, a.barber_id = "b1" ∧
      a.status = "confirmed" ∧ a.appointment_datetime < s.time + 30 ∧
      s.time < a.appointment_datetime + a.duration_minutes := by
  decide

/-- C5 amended: no slot returned by get_available_slots overlaps (under the
half-open rule appt.start < slot.end and appt.end > slot.start) any
confirmed appointment of the provider whose start instant lies within the
queried calendar day — the population the day query fetches; appointments
starting outside that day escape the filter (see the counterexample). -/
theorem slots_no_overlap (db : Store) (now : Nat) (bid : String)
    (date dur : Nat) :
    ∀ s ∈ get_available_slots db now bid date dur,
    ∀ a ∈ db.appointments, a.barber_id = bid → a.status = "confirmed" →
      dayFloor date ≤ a.appointment_datetime →
      a.appointment_datetime ≤ dayFloor date + 1439 →
      ¬(a.appointment_datetime < s.time + dur ∧
        s.time < a.appointment_datetime + a.duration_minutes) := by
  intro s hs a ha h1 h2 h3 h4
  have hm := slots_mem db now bid date dur s hs
  refine hm.2.2 a ?_
  unfold get_barber_appointments
  refine List.mem_filter.2 ⟨ha, ?_⟩
  simp [h1, h2, h3, h4]

/-- C5 fixture for the witness: a confirmed in-day appointment on Monday
2025-12-01 at 10:00. -/
def mondayAppt : Appointment :=
  ⟨"a2", "Sam", "sam@mail.com", "555-2", "b1", "Sarah Davis", "haircut",
    20423 * 1440 + 600, 30, "confirmed", now0, none⟩

/-- Store with the Monday appointment. -/
def storeMonday : Store := ⟨[sarahDavis], [mondayAppt]⟩

/-- C5 witness: the returned 09:00 Monday slot does not overlap the 10:00
confirmed appointment of that day. -/
theorem slots_no_overlap_witness :
    ¬(mondayAppt.appointment_datetime < (20423 * 1440 + 540) + 30 ∧
      20423 * 1440 + 540 <
        mondayAppt.appointment_datetime + mondayAppt.duration_minutes) :=
  slots_no_overlap storeMonday now0 "b1" (20423 * 1440) 30
    ⟨20423 * 1440 + 540, "09:00 AM"⟩ (by decide) mondayAppt (by decide)
    rfl rfl (by decide) (by decide)

/-- C1: whenever check_slot_availability reports a 30-minute slot available
for a provider id and instant, booking that slot persists exactly one new
appointment for that provider, instant, 30-minute duration and confirmed
status, and an immediately subsequent check for the identical provider,
instant and duration (no other change to the store) reports
available=false with the conflict reason. -/
theorem round_trip_book_conflict (db : Store) (now : Nat)
    (simFn : String → String → Nat) (cn ce cp bid bn st nid : String) (t : Nat)
    (h : (check_slot_availability db now bid t 30).available = true) :
    (∃ appt,
      (book_appointment db now simFn cn ce cp bid bn st (some t) nid).2.appointments =
        db.appointments ++ [appt] ∧
      appt.barber_id = bid ∧ appt.appointment_datetime = t ∧
      appt.duration_minutes = 30 ∧ appt.status = "confirmed") ∧
    (check_slot_availability
        (book_appointment db now simFn cn ce cp bid bn st (some t) nid).2
        now bid t 30).available = false ∧
    (check_slot_availability
        (book_appointment db now simFn cn ce cp bid bn st (some t) nid).2
        now bid t 30).reason = "Time slot conflicts with existing appointment" := by
  obtain ⟨b, hrs, hb, hav, hh, hoff, hws, hwe, hnow, hfind⟩ :=
    check_avail_true_elim db now bid t 30 h
  have hnl : ¬t < now := by omega
  have hparse : parse_natural_datetime (some t) now = some t := by
    simp [parse_natural_datetime, hnl]
  have hres : resolveBarber db simFn bid bn = (some b, bid, bn) := by
    unfold resolveBarber; rw [hb]
  have htrue : check_slot_availability db now bid t 30 =
      ⟨true, "Slot is available", []⟩ := by
    rw [check_eval_guards db now bid t 30 b hrs hb hav hh hoff hws hwe hnow, hfind]
  set appt : Appointment :=
    ⟨nid, cn, ce, cp, bid, bn, st, t, 30, "confirmed", now, none⟩ with happt
  have hbook : book_appointment db now simFn cn ce cp bid bn st (some t) nid =
      (⟨true, none, some nid, some nid, [], none, some appt⟩,
        { db with appointments := db.appointments ++ [appt] }) := by
    unfold book_appointment
    rw [hparse]
    dsimp only []
    rw [hres]
    dsimp only []
    rw [htrue]
    rfl
  rw [hbook]
  refine ⟨⟨appt, rfl, rfl, rfl, rfl, rfl⟩, ?_⟩
  have hb2 : get_barber_by_id { db with appointments := db.appointments ++ [appt] }
      bid = some b := hb
  have happts : get_barber_appointments
      { db with appointments := db.appointments ++ [appt] } bid
      (dayFloor t) (dayFloor t + 1439) =
      get_barber_appointments db bid (dayFloor t) (dayFloor t + 1439) ++ [appt] := by
    unfold get_barber_appointments
    show List.filter _ (db.appointments ++ [appt]) = _
    rw [List.filter_append]
    congr 1
    have hd1 : dayFloor t ≤ t := Nat.div_mul_le_self t 1440
    have hd2 : t ≤ dayFloor t + 1439 := by
      have e1 := Nat.div_add_mod t 1440
      have e2 : t % 1440 < 1440 := Nat.mod_lt _ (by norm_num)
      unfold dayFloor
      omega
    simp [List.filter, happt, hd1, hd2]
  have hconf : conflictsWith t 30 appt = true := by
    rw [happt]
    unfold conflictsWith
    simp only [Bool.and_eq_true, decide_eq_true_eq]
    omega
  have hfind2 : (get_barber_appointments
      { db with appointments := db.appointments ++ [appt] } bid
      (dayFloor t) (dayFloor t + 1439)).find? (conflictsWith t 30) = some appt := by
    rw [happts, List.find?_append, hfind]
    simp [List.find?_cons_of_pos _ hconf]
  have hres2 := check_eval_guards
    { db with appointments := db.appointments ++ [appt] } now bid t 30 b hrs
    hb2 hav hh hoff hws hwe hnow
  rw [hfind2] at hres2
  rw [hres2]
  exact ⟨rfl, rfl⟩

/-- C1 witness: Wednesday 2025-12-03 15:00 with Sarah Davis is reported
available, and booking it then re-checking yields the conflict verdict. -/
theorem round_trip_book_conflict_witness :
    (∃ appt,
      (book_appointment storeSarah now0 (fun _ _ => 0) "Ali" "ali@mail.com"
          "555-1" "b1" "Sarah Davis" "haircut"
          (some (20425 * 1440 + 900)) "a1").2.appointments =
        storeSarah.appointments ++ [appt] ∧
      appt.barber_id = "b1" ∧ appt.appointment_datetime = 20425 * 1440 + 900 ∧
      appt.duration_minutes = 30 ∧ appt.status = "confirmed") ∧
    (check_slot_availability
        (book_appointment storeSarah now0 (fun _ _ => 0) "Ali" "ali@mail.com"
          "555-1" "b1" "Sarah Davis" "haircut"
          (some (20425 * 1440 + 900)) "a1").2
        now0 "b1" (20425 * 1440 + 900) 30).available = false ∧
    (check_slot_availability
        (book_appointment storeSarah now0 (fun _ _ => 0) "Ali" "ali@mail.com"
          "555-1" "b1" "Sarah Davis" "haircut"
          (some (20425 * 1440 + 900)) "a1").2
        now0 "b1" (20425 * 1440 + 900) 30).reason =
      "Time slot conflicts with existing appointment" :=
  round_trip_book_conflict storeSarah now0 (fun _ _ => 0) "Ali" "ali@mail.com"
    "555-1" "b1" "Sarah Davis" "haircut" "a1" (20425 * 1440 + 900) (by decide)
